import Mathlib

/-!
# Verification of the environment-preparation logic of the SBDL repository

Shallow embedding of the two scripts of the repository:

* `sbdl_main.py` — the argument & session bootstrapper (argument-count
  check, uppercasing of the run-environment token, call into the
  session factory `get_spark_session`).
* `something.py` — the environment normalizer & diagnostic runner
  (PATH filtering against a deny-list, the PySpark version gate on the
  output of `pip show pyspark`, and the `try/except/finally` structure
  around session creation and the diagnostic sequence).

Python strings are modelled as `List Char`; the Python string
operations used by the scripts (`split`, `join`, `lower`, `upper`,
`strip`, `startswith`, the `in` substring test) are defined below with
their Python semantics (in particular `"".split(sep) = [""]`).
-/

namespace SBDL

/-! ## Python string primitives -/

/-- Python `s.lower()` (character-wise, as used on ASCII path text). -/
def lowerStr (s : List Char) : List Char := s.map Char.toLower

/-- Python `s.upper()` (character-wise, as used on ASCII argument text). -/
def upperStr (s : List Char) : List Char := s.map Char.toUpper

/-- Python `needle in haystack`: substring containment. -/
def containsSub : List Char → List Char → Bool
  | needle, [] => needle.isEmpty
  | needle, c :: rest => needle.isPrefixOf (c :: rest) || containsSub needle rest

/-- Python `s.split(sep)` for a one-character separator: splits at every
occurrence of `sep`; the empty string yields `[""]`. -/
def pySplit (sep : Char) : List Char → List (List Char)
  | [] => [[]]
  | c :: rest =>
    match pySplit sep rest with
    | [] => [[]]
    | g :: gs => if c = sep then [] :: g :: gs else (c :: g) :: gs

/-- Python `sep.join(segs)` for a one-character separator. -/
def pyJoin (sep : Char) : List (List Char) → List Char
  | [] => []
  | [x] => x
  | x :: y :: xs => x ++ sep :: pyJoin sep (y :: xs)

/-- The whitespace characters stripped by Python `str.strip()`. -/
def pyIsSpace (c : Char) : Bool :=
  c = ' ' || c = '\t' || c = '\n' || c = '\x0b' || c = '\x0c' || c = '\r'

/-- Python `s.strip()`: removes leading and trailing whitespace. -/
def pyStrip (s : List Char) : List Char :=
  ((s.dropWhile pyIsSpace).reverse.dropWhile pyIsSpace).reverse

/-- Python `s.startswith(p)`. -/
def pyStartswith (p s : List Char) : Bool := p.isPrefixOf s

/-! ## `something.py`, lines 25–40: PATH normalization

```python
path_dirs = os.environ.get("PATH", "").split(os.pathsep)
filtered_dirs = []
removed_paths = []
for path_dir in path_dirs:
    if any(pattern in path_dir.lower() for pattern in ["3.11", "python311", "py311"]):
        removed_paths.append(path_dir)
    else:
        filtered_dirs.append(path_dir)
current_python_dir = os.path.dirname(sys.executable)
os.environ["PATH"] = current_python_dir + os.pathsep + os.pathsep.join(filtered_dirs)
```
-/

/-- The deny-list of markers, line 30. -/
def denyPatterns : List (List Char) := ["3.11".data, "python311".data, "py311".data]

/-- Line 30: `any(pattern in path_dir.lower() for pattern in [...])`. -/
def matchesDeny (d : List Char) : Bool :=
  denyPatterns.any (fun p => containsSub p (lowerStr d))

/-- One iteration of the loop of lines 29–33: append the segment to
`removed_paths` or to `filtered_dirs`. -/
def pathStep (acc : List (List Char) × List (List Char)) (d : List Char) :
    List (List Char) × List (List Char) :=
  if matchesDeny d then (acc.1, acc.2 ++ [d]) else (acc.1 ++ [d], acc.2)

/-- The loop of lines 29–33 over the split PATH, producing
`(filtered_dirs, removed_paths)`. -/
def pathLoop (dirs : List (List Char)) : List (List Char) × List (List Char) :=
  dirs.foldl pathStep ([], [])

/-- The `filtered_dirs` list after the loop. -/
def filtered_dirs (dirs : List (List Char)) : List (List Char) := (pathLoop dirs).1

/-- The `removed_paths` list after the loop. -/
def removed_paths (dirs : List (List Char)) : List (List Char) := (pathLoop dirs).2

/-- Lines 25–40 end to end: split the PATH value on the separator,
filter, and rebuild as
`current_python_dir + os.pathsep + os.pathsep.join(filtered_dirs)`. -/
def normalizePATH (path currentDir : List Char) (sep : Char) : List Char :=
  currentDir ++ sep :: pyJoin sep (filtered_dirs (pySplit sep path))

/-! ## `something.py`, lines 59–86: the PySpark check and version gate

```python
try:
    result = subprocess.run([sys.executable, "-m", "pip", "show", "pyspark"], ...)
    if "Version:" in result.stdout:
        version_line = [line for line in result.stdout.split("\n") if "Version:" in line][0]
        version = version_line.split(":")[1].strip()
        if version.startswith("4."):
            ...
            response = input("...(yes/no): ")
            if response.lower() not in ["yes", "y"]:
                sys.exit(0)
    else:
        ...
        sys.exit(1)
except Exception as e:
    print(f"   Error checking PySpark: {e}")
```

`sys.exit` raises `SystemExit`, which is a `BaseException` and is NOT
caught by `except Exception`, so both `sys.exit(0)` (line 78) and
`sys.exit(1)` (line 82) terminate the process from inside the `try`
block.  Any other exception in the block (a failing subprocess, an
`IndexError` from `[0]` or `[1]`) is caught by line 84 and execution
falls through.  The step is modelled as a function from the captured
`pip show` stdout and the interactive response to `Option Int`:
`some c` means the process terminates with exit code `c`, `none` means
execution continues past line 86. -/

/-- Line 70: `version.startswith("4.")`. -/
def promptTriggered (version : List Char) : Bool := pyStartswith ("4.").data version

/-- Lines 70–78: the version gate.  `some 0` when the prompt fires and
the response, lowercased, is neither `yes` nor `y`; `none` when
execution continues. -/
def versionGate (version response : List Char) : Option Int :=
  if promptTriggered version then
    if ¬ (["yes".data, "y".data].contains (lowerStr response)) then some 0 else none
  else none

/-- Line 65: `"Version:" in result.stdout`. -/
def hasVersionMarker (stdout : List Char) : Bool := containsSub ("Version:").data stdout

/-- Lines 65–82 (the body of the `try` from line 59, given the stdout
of the subprocess): extract the version line and field, run the
version gate, or take the PySpark-not-found branch (`sys.exit(1)`).
The out-of-range list indexings `[0]` and `[1]` raise `IndexError`,
which `except Exception` (line 84) catches: those branches yield
`none` (fall through). -/
def pipCheckStep (stdout response : List Char) : Option Int :=
  if hasVersionMarker stdout then
    match (pySplit '\n' stdout).filter (fun l => containsSub ("Version:").data l) with
    | [] => none
    | line :: _ =>
      match pySplit ':' line with
      | _ :: field1 :: _ => versionGate (pyStrip field1) response
      | _ => none
  else some 1

/-! ## `something.py`, lines 94–186: try/except/finally

The tail of the script is

```python
try:
    ... session creation and diagnostics ...
except Exception as e:
    print(f"\n! ERROR: {e}")
    ... four remediation lines ...
    traceback.print_exc()
finally:
    try:
        spark.stop()
        print("\n* Spark session stopped")
    except:
        pass
```

modelled with small combinators giving the Python `try` semantics over
computations that print lines and either finish normally or raise. -/

/-- Outcome of a Python computation: normal completion or a raised
exception carrying its message. -/
inductive Outcome where
  | normal : Outcome
  | raised : List Char → Outcome
deriving DecidableEq, Repr

/-- A Python computation, abstracted to the lines it prints (in order,
up to the point it finishes or raises) and its outcome. -/
structure PyComp where
  prints : List (List Char)
  outcome : Outcome
deriving DecidableEq, Repr

/-- Python `try: body except Exception as e: handler(e)` where the
handler receives the message of the exception. -/
def pyTryExcept (body : PyComp) (handler : List Char → PyComp) : PyComp :=
  match body.outcome with
  | .normal => body
  | .raised m => { prints := body.prints ++ (handler m).prints, outcome := (handler m).outcome }

/-- Python `try: body finally: fin`: the final block always runs; an
exception raised by it takes over, otherwise the outcome of the body
stands. -/
def pyTryFinally (body fin : PyComp) : PyComp :=
  match fin.outcome with
  | .normal => { prints := body.prints ++ fin.prints, outcome := body.outcome }
  | .raised m => { prints := body.prints ++ fin.prints, outcome := .raised m }

/-- Python `try: body except: pass` (bare except, lines 182–186):
any exception is swallowed. -/
def pyTryBareExcept (body : PyComp) : PyComp :=
  match body.outcome with
  | .normal => body
  | .raised _ => { prints := body.prints, outcome := .normal }

/-- The error line printed at line 168: `print(f"\n! ERROR: {e}")`. -/
def errPrint (m : List Char) : List Char := ("ERROR: ").data ++ m

/-- The four remediation-hint lines printed at lines 170–173. -/
def remediationLines : List (List Char) :=
  [("1. Uninstall PySpark: pip uninstall pyspark").data,
   ("2. Install stable version: pip install pyspark==3.5.1").data,
   ("3. Remove Spark 4.0 folder: rename D:\\spark-4.0.0-bin-hadoop3").data,
   ("4. Run this script again").data]

/-- Line 178: `traceback.print_exc()`, printing the full stack trace
of the caught exception. -/
def tracebackPrint (m : List Char) : List Char := ("TRACEBACK: ").data ++ m

/-- The `except Exception as e` handler of lines 167–178. -/
def exceptHandler (m : List Char) : PyComp :=
  { prints := errPrint m :: remediationLines ++ [tracebackPrint m], outcome := .normal }

/-- Lines 94–186 assembled: the session/diagnostic body inside
`try ... except Exception ... finally: try: stop except: pass`,
parameterised by the body computation and by the cleanup
(`spark.stop()` and its success print) computation. -/
def sparkTail (body stopc : PyComp) : PyComp :=
  pyTryFinally (pyTryExcept body exceptHandler) (pyTryBareExcept stopc)

/-! ## `sbdl_main.py`:

```python
if len(sys.argv) < 3:
    print("Usage: sdbl {local, qa, prod} {load_date} : arguments are missing")
    sys.exit(-1)
job_run_env = sys.argv[1].upper()
local_date = sys.argv[2]
spark = utils.get_spark_session(job_run_env)
```
-/

/-- What the bootstrapper does, observationally: whether the usage
message was printed, the exit code if it exited, the single argument
passed to the session factory `get_spark_session` (if reached), and
the value bound to the local variable `local_date`. -/
structure BootOutcome where
  usagePrinted : Bool
  exitCode : Option Int
  sessionFactoryArg : Option (List Char)
  localDate : Option (List Char)
deriving DecidableEq, Repr

/-- Lines 6–14 of `sbdl_main.py` as a function of `sys.argv`. -/
def sbdlMain (argv : List (List Char)) : BootOutcome :=
  if argv.length < 3 then
    { usagePrinted := true, exitCode := some (-1), sessionFactoryArg := none, localDate := none }
  else
    { usagePrinted := false, exitCode := none,
      sessionFactoryArg := some (upperStr (argv.getD 1 [])),
      localDate := some (argv.getD 2 []) }

/-! ## Helper lemmas -/

theorem pySplit_ne_nil (sep : Char) (s : List Char) : pySplit sep s ≠ [] := by
  cases s with
  | nil => simp [pySplit]
  | cons c rest =>
    simp only [pySplit]
    cases h : pySplit sep rest with
    | nil => simp
    | cons g gs => by_cases hc : c = sep <;> simp [hc]

theorem pySplit_cons (sep c : Char) (rest g : List Char) (gs : List (List Char))
    (h : pySplit sep rest = g :: gs) :
    pySplit sep (c :: rest) = if c = sep then [] :: g :: gs else (c :: g) :: gs := by
  simp only [pySplit, h]

theorem pySplit_mem_no_sep (sep : Char) (s : List Char) :
    ∀ g ∈ pySplit sep s, sep ∉ g := by
  induction s with
  | nil => intro g hg; simp [pySplit] at hg; simp [hg]
  | cons c rest ih =>
    intro g hg
    cases h : pySplit sep rest with
    | nil => exact absurd h (pySplit_ne_nil sep rest)
    | cons g0 gs =>
      rw [pySplit_cons sep c rest g0 gs h] at hg
      by_cases hc : c = sep
      · rw [if_pos hc] at hg
        rcases List.mem_cons.mp hg with hg | hg
        · simp [hg]
        · exact ih g (h ▸ hg)
      · rw [if_neg hc] at hg
        rcases List.mem_cons.mp hg with hg | hg
        · subst hg
          intro hmem
          rcases List.mem_cons.mp hmem with h1 | h1
          · exact hc h1.symm
          · exact ih g0 (h ▸ List.mem_cons_self g0 gs) h1
        · exact ih g (h ▸ List.mem_cons.mpr (Or.inr hg))

theorem pySplit_of_no_sep (sep : Char) (s : List Char) (hs : sep ∉ s) :
    pySplit sep s = [s] := by
  induction s with
  | nil => rfl
  | cons c rest ih =>
    have hc : ¬ c = sep := fun h => hs (h ▸ List.mem_cons_self c rest)
    have hrest : sep ∉ rest := fun h => hs (List.mem_cons.mpr (Or.inr h))
    simp only [pySplit, ih hrest, if_neg hc]

theorem pySplit_append_sep (sep : Char) (x y : List Char) (hx : sep ∉ x) :
    pySplit sep (x ++ sep :: y) = x :: pySplit sep y := by
  induction x with
  | nil =>
    simp only [List.nil_append, pySplit]
    cases h : pySplit sep y with
    | nil => exact absurd h (pySplit_ne_nil sep y)
    | cons g gs => simp
  | cons c x' ih =>
    have hc : ¬ c = sep := fun h => hx (h ▸ List.mem_cons_self c x')
    have hx' : sep ∉ x' := fun h => hx (List.mem_cons.mpr (Or.inr h))
    rw [List.cons_append, pySplit_cons sep c (x' ++ sep :: y) x' (pySplit sep y) (ih hx'),
      if_neg hc]

theorem pyJoin_cons_head (sep : Char) (c : Char) (g : List Char) (gs : List (List Char)) :
    pyJoin sep ((c :: g) :: gs) = c :: pyJoin sep (g :: gs) := by
  cases gs with
  | nil => rfl
  | cons g2 gs' => simp [pyJoin]

theorem pyJoin_pySplit (sep : Char) (s : List Char) :
    pyJoin sep (pySplit sep s) = s := by
  induction s with
  | nil => rfl
  | cons c rest ih =>
    cases h : pySplit sep rest with
    | nil => exact absurd h (pySplit_ne_nil sep rest)
    | cons g gs =>
      rw [h] at ih
      rw [pySplit_cons sep c rest g gs h]
      by_cases hc : c = sep
      · subst hc
        rw [if_pos rfl]
        simp [pyJoin, ih]
      · rw [if_neg hc, pyJoin_cons_head, ih]

theorem pySplit_pyJoin (sep : Char) (l : List (List Char)) (hne : l ≠ [])
    (hsep : ∀ g ∈ l, sep ∉ g) : pySplit sep (pyJoin sep l) = l := by
  induction l with
  | nil => exact absurd rfl hne
  | cons x xs ih =>
    cases xs with
    | nil => exact pySplit_of_no_sep sep x (hsep x (List.mem_cons_self x []))
    | cons y ys =>
      have hx : sep ∉ x := hsep x (List.mem_cons_self x (y :: ys))
      have hrest : ∀ g ∈ y :: ys, sep ∉ g :=
        fun g hg => hsep g (List.mem_cons.mpr (Or.inr hg))
      simp only [pyJoin, pySplit_append_sep sep x _ hx,
        ih (List.cons_ne_nil y ys) hrest]

theorem pathLoop_go (dirs : List (List Char)) (f r : List (List Char)) :
    dirs.foldl pathStep (f, r)
      = (f ++ dirs.filter (fun d => !matchesDeny d), r ++ dirs.filter matchesDeny) := by
  induction dirs generalizing f r with
  | nil => simp
  | cons d rest ih =>
    simp only [List.foldl_cons, List.filter_cons]
    by_cases h : matchesDeny d
    · simp [pathStep, h, ih]
    · simp [pathStep, h, ih]

theorem filtered_dirs_eq (dirs : List (List Char)) :
    filtered_dirs dirs = dirs.filter (fun d => !matchesDeny d) := by
  simpa using congrArg Prod.fst (pathLoop_go dirs [] [])

theorem removed_paths_eq (dirs : List (List Char)) :
    removed_paths dirs = dirs.filter matchesDeny := by
  simpa using congrArg Prod.snd (pathLoop_go dirs [] [])

theorem length_filter_not_add (p : List Char → Bool) (l : List (List Char)) :
    (l.filter fun d => !p d).length + (l.filter p).length = l.length := by
  induction l with
  | nil => rfl
  | cons d rest ih =>
    by_cases h : p d <;> simp [List.filter_cons, h] <;> omega

theorem normalizePATH_split (path dir : List Char) (sep : Char) (hdir : sep ∉ dir) :
    pySplit sep (normalizePATH path dir sep)
      = if filtered_dirs (pySplit sep path) = [] then [dir, []]
        else dir :: filtered_dirs (pySplit sep path) := by
  by_cases hne : filtered_dirs (pySplit sep path) = []
  · rw [if_pos hne]
    unfold normalizePATH
    rw [hne, pySplit_append_sep sep dir (pyJoin sep []) hdir]
    rfl
  · rw [if_neg hne]
    unfold normalizePATH
    rw [pySplit_append_sep sep dir _ hdir]
    congr 1
    apply pySplit_pyJoin sep _ hne
    intro g hg
    apply pySplit_mem_no_sep sep path
    rw [filtered_dirs_eq] at hg
    exact List.mem_of_mem_filter hg

theorem mem_filtered_no_deny {dirs : List (List Char)} {g : List Char}
    (hg : g ∈ filtered_dirs dirs) : matchesDeny g = false := by
  rw [filtered_dirs_eq] at hg
  simpa using List.of_mem_filter hg

theorem normalizePATH_of_no_marker (q dir : List Char) (sep : Char)
    (hq : ∀ g ∈ pySplit sep q, matchesDeny g = false) :
    normalizePATH q dir sep = dir ++ sep :: q := by
  unfold normalizePATH
  rw [filtered_dirs_eq,
    List.filter_eq_self.mpr (fun a ha => by simp [hq a ha]),
    pyJoin_pySplit]

/-! ## The claims -/

/-- C1, amended.  As stated the claim fails when every segment matches
the deny-list (see the counterexample): then `filtered_dirs` is empty,
the rebuilt value is `current_python_dir + os.pathsep`, and re-splitting
it gives the runtime directory followed by one empty segment — 2
segments, not `1 + (N - M) = 1`.  Amended: provided at least one
segment survives (and the runtime directory contains no separator),
the normalized PATH splits into exactly `1 + (N - M)` segments, the
runtime directory first, followed by the `N - M` surviving segments in
their original relative order; when no segment survives, the result
splits into the runtime directory followed by one empty segment. -/
theorem normalizePATH_segment_count (path dir : List Char) (sep : Char)
    (hdir : sep ∉ dir) :
    (filtered_dirs (pySplit sep path) ≠ [] →
      pySplit sep (normalizePATH path dir sep)
          = dir :: (pySplit sep path).filter (fun d => !matchesDeny d) ∧
        (pySplit sep (normalizePATH path dir sep)).length
          = 1 + ((pySplit sep path).length - (removed_paths (pySplit sep path)).length)) ∧
    (filtered_dirs (pySplit sep path) = [] →
      pySplit sep (normalizePATH path dir sep) = [dir, []]) := by
  have hsplit := normalizePATH_split path dir sep hdir
  constructor
  · intro hne
    rw [if_neg hne] at hsplit
    have h1 : pySplit sep (normalizePATH path dir sep)
        = dir :: (pySplit sep path).filter (fun d => !matchesDeny d) := by
      rw [hsplit, filtered_dirs_eq]
    refine ⟨h1, ?_⟩
    rw [h1, removed_paths_eq]
    have := length_filter_not_add matchesDeny (pySplit sep path)
    simp only [List.length_cons]
    omega
  · intro hnil
    rw [if_pos hnil] at hsplit
    exact hsplit

/-- Witness for `normalizePATH_segment_count` at the concrete
scenario. -/
theorem normalizePATH_segment_count_witness :
    pySplit ';' (normalizePATH ("C:\\PyA;C:\\Python311\\Scripts;C:\\PyB").data
        ("C:\\PyA").data ';')
      = ("C:\\PyA").data
        :: (pySplit ';' ("C:\\PyA;C:\\Python311\\Scripts;C:\\PyB").data).filter
            (fun d => !matchesDeny d) :=
  ((normalizePATH_segment_count ("C:\\PyA;C:\\Python311\\Scripts;C:\\PyB").data
      ("C:\\PyA").data ';' (by decide)).1 (by decide)).1

/-- C1 is false as stated: for the input PATH `"python311"` (N = 1
segment, M = 1 matching segment) the normalized PATH splits into 2
segments, not `1 + (N - M) = 1`. -/
theorem normalizePATH_segment_count_cex :
    (pySplit ';' ("python311").data).length = 1 ∧
    (removed_paths (pySplit ';' ("python311").data)).length = 1 ∧
    (pySplit ';' (normalizePATH ("python311").data ("C:\\PyA").data ';')).length
      ≠ 1 + ((pySplit ';' ("python311").data).length
          - (removed_paths (pySplit ';' ("python311").data)).length) :=
  ⟨by decide, by decide, by decide⟩

/-- C2, amended.  As stated the claim fails: empty segments survive the
filtering (see the counterexample — an empty PATH splits into one empty
segment, which matches no deny-list marker and is kept).  Amended: after
the deny-list filtering step, no segment of `filtered_dirs` matches a
deny-list marker; empty segments present in the split are kept. -/
theorem filtered_dirs_no_deny (dirs : List (List Char)) :
    ∀ g ∈ filtered_dirs dirs, matchesDeny g = false :=
  fun _g hg => mem_filtered_no_deny hg

/-- Witness for `filtered_dirs_no_deny` on a concrete segment list. -/
theorem filtered_dirs_no_deny_witness : matchesDeny ("C:\\PyB").data = false :=
  filtered_dirs_no_deny [("C:\\Python311").data, ("C:\\PyB").data] ("C:\\PyB").data
    (by decide)

/-- C2 is false as stated: the empty PATH splits into one empty
segment, and after filtering `filtered_dirs` still contains that empty
segment. -/
theorem filtered_dirs_no_deny_cex :
    filtered_dirs (pySplit ';' ("").data) = [[]] := by decide

/-- C8: PATH normalization is idempotent up to the leading entry.
For a runtime directory that contains no separator and matches no
deny-list marker, re-running normalization on an already-normalized
PATH finds no deny-list marker in any segment, removes zero segments,
and returns the same PATH with one additional copy of the runtime
directory prepended at the front. -/
theorem normalizePATH_idem (p dir : List Char) (sep : Char)
    (hdir : sep ∉ dir) (hden : matchesDeny dir = false) :
    (∀ g ∈ pySplit sep (normalizePATH p dir sep), matchesDeny g = false) ∧
    removed_paths (pySplit sep (normalizePATH p dir sep)) = [] ∧
    normalizePATH (normalizePATH p dir sep) dir sep
      = dir ++ sep :: normalizePATH p dir sep := by
  have hall : ∀ g ∈ pySplit sep (normalizePATH p dir sep), matchesDeny g = false := by
    intro g hg
    rw [normalizePATH_split p dir sep hdir] at hg
    by_cases hne : filtered_dirs (pySplit sep p) = []
    · rw [if_pos hne] at hg
      rcases List.mem_cons.mp hg with h | h
      · exact h ▸ hden
      · have hg0 : g = [] := by simpa using h
        subst hg0
        decide
    · rw [if_neg hne] at hg
      rcases List.mem_cons.mp hg with h | h
      · exact h ▸ hden
      · exact mem_filtered_no_deny h
  refine ⟨hall, ?_, normalizePATH_of_no_marker _ dir sep hall⟩
  rw [removed_paths_eq, List.filter_eq_nil_iff]
  intro a ha
  simp [hall a ha]

/-- Witness for `normalizePATH_idem` at the concrete scenario. -/
theorem normalizePATH_idem_witness :
    normalizePATH (normalizePATH ("C:\\PyA;C:\\Python311\\Scripts;C:\\PyB").data
        ("C:\\PyA").data ';') ("C:\\PyA").data ';'
      = ("C:\\PyA").data ++ ';'
          :: normalizePATH ("C:\\PyA;C:\\Python311\\Scripts;C:\\PyB").data
              ("C:\\PyA").data ';' :=
  (normalizePATH_idem ("C:\\PyA;C:\\Python311\\Scripts;C:\\PyB").data
      ("C:\\PyA").data ';' (by decide) (by decide)).2.2

/-- C9: the concrete scenario of the specification.  For the input PATH
`"C:\PyA;C:\Python311\Scripts;C:\PyB"` with runtime directory
`"C:\PyA"` and separator `;`, the normalization removes the matching
segment and prepends the runtime directory unconditionally, producing
`"C:\PyA;C:\PyA;C:\PyB"` with a duplicate leading entry. -/
theorem normalizePATH_scenario :
    normalizePATH ("C:\\PyA;C:\\Python311\\Scripts;C:\\PyB").data ("C:\\PyA").data ';'
      = ("C:\\PyA;C:\\PyA;C:\\PyB").data := by decide

/-- C3, amended.  As stated the claim is false: `sbdl_main.py` calls
`get_spark_session(job_run_env)` with the uppercased run-environment
token as its only argument; the load-date is bound to the local
variable `local_date` and never reaches the factory (see the
counterexample).  Amended: on a successful argument check the
bootstrapper uppercases the run-environment token and passes it alone
to the session factory; the raw load-date string is kept in a local
variable, unmodified but unused. -/
theorem sbdlMain_factory_arg (p a1 a2 : List Char) (rest : List (List Char)) :
    sbdlMain (p :: a1 :: a2 :: rest)
      = ({ usagePrinted := false, exitCode := none,
           sessionFactoryArg := some (upperStr a1),
           localDate := some a2 } : BootOutcome) := by
  unfold sbdlMain
  rw [if_neg (by simp)]
  rfl

/-- C3 is false as stated: the load-date does not reach the session
factory.  Two invocations that differ only in the load-date pass the
identical single argument to `get_spark_session`. -/
theorem sbdlMain_factory_arg_cex :
    (sbdlMain [("sbdl_main.py").data, ("prod").data,
        ("2022-08-02").data]).sessionFactoryArg = some (("PROD").data) ∧
    (sbdlMain [("sbdl_main.py").data, ("prod").data,
        ("1999-01-01").data]).sessionFactoryArg = some (("PROD").data) ∧
    ("2022-08-02").data ≠ ("1999-01-01").data :=
  ⟨by decide, by decide, by decide⟩

theorem versionGate_exit_zero {v r : List Char} {c : Int}
    (h : versionGate v r = some c) : c = 0 := by
  unfold versionGate at h
  split at h
  · split at h
    · injection h with h
      omega
    · exact Option.noConfusion h
  · exact Option.noConfusion h

/-- C4: the version gate prompts exactly on the known-incompatible
major version — it fires on `"4.0.2"`, stays silent on `"3.5.1"`, and
for any dotted version string whose major component is dot-free, it
fires iff that component is `"4"`; when it fires, a non-affirmative
response terminates with exit code 0. -/
theorem versionGate_major (maj rest r : List Char) :
    promptTriggered ("4.0.2").data = true ∧
    promptTriggered ("3.5.1").data = false ∧
    ('.' ∉ maj → (promptTriggered (maj ++ '.' :: rest) = true ↔ maj = ("4").data)) ∧
    (([("yes").data, ("y").data].contains (lowerStr r)) = false →
      versionGate ("4.0.2").data r = some 0) := by
  refine ⟨by decide, by decide, ?_, ?_⟩
  · intro hdot
    rcases maj with _ | ⟨c, _ | ⟨c2, m⟩⟩
    · show List.isPrefixOf ['4', '.'] ('.' :: rest) = true ↔ _
      rw [List.isPrefixOf_iff_prefix]
      simp [List.cons_prefix_cons]
    · show List.isPrefixOf ['4', '.'] (c :: '.' :: rest) = true ↔ [c] = ['4']
      rw [List.isPrefixOf_iff_prefix]
      simp [List.cons_prefix_cons, eq_comm]
    · have hc2 : ¬ ('.' = c2) :=
        fun h => hdot (List.mem_cons.mpr (Or.inr (h ▸ List.mem_cons_self c2 m)))
      show List.isPrefixOf ['4', '.'] (c :: c2 :: (m ++ '.' :: rest)) = true ↔ _
      rw [List.isPrefixOf_iff_prefix]
      simp [List.cons_prefix_cons, hc2]
  · intro h
    rw [versionGate, if_pos (by decide), if_pos (by rw [h]; simp)]

/-- Witness for `versionGate_major` at `"4.0.2"` and response `"no"`. -/
theorem versionGate_major_witness :
    (promptTriggered (("4").data ++ '.' :: ("0.2").data) = true ↔ ("4").data = ("4").data) ∧
    versionGate ("4.0.2").data ("no").data = some 0 :=
  ⟨(versionGate_major ("4").data ("0.2").data ("no").data).2.2.1 (by decide),
   (versionGate_major ("4").data ("0.2").data ("no").data).2.2.2 (by decide)⟩

/-- C5: with fewer than 3 argument-vector entries the bootstrapper
prints the usage message, exits with code -1, and never calls the
session factory. -/
theorem sbdlMain_usage (argv : List (List Char)) (h : argv.length < 3) :
    sbdlMain argv
      = ({ usagePrinted := true, exitCode := some (-1),
           sessionFactoryArg := none, localDate := none } : BootOutcome) := by
  unfold sbdlMain
  rw [if_pos h]

/-- Witness for `sbdlMain_usage` at a one-entry argument vector. -/
theorem sbdlMain_usage_witness :
    sbdlMain [("sbdl_main.py").data]
      = ({ usagePrinted := true, exitCode := some (-1),
           sessionFactoryArg := none, localDate := none } : BootOutcome) :=
  sbdlMain_usage [("sbdl_main.py").data] (by decide)

/-- C10: when the version-gate prompt fires, the responses that
continue execution are exactly those whose lowercase form is `yes` or
`y` (so `YES` and `Y` continue); every other response, the empty
string included, exits with code 0. -/
theorem versionGate_responses (v r : List Char) (hv : promptTriggered v = true) :
    (versionGate v r = none
      ↔ lowerStr r = ("yes").data ∨ lowerStr r = ("y").data) ∧
    versionGate v [] = some 0 ∧
    versionGate v ("YES").data = none ∧
    versionGate v ("Y").data = none := by
  have hmem : ∀ s : List Char,
      ([("yes").data, ("y").data].contains (lowerStr s)) = true
        ↔ (lowerStr s = ("yes").data ∨ lowerStr s = ("y").data) := by
    intro s
    have h1 : ([("yes").data, ("y").data].contains (lowerStr s)) = true
        ↔ lowerStr s ∈ [("yes").data, ("y").data] := by
      simp [List.contains]
    rw [h1, List.mem_cons, List.mem_singleton]
  have key : ∀ s : List Char, versionGate v s
      = if ([("yes").data, ("y").data].contains (lowerStr s)) = true
        then none else some 0 := by
    intro s
    rw [versionGate, if_pos hv]
    by_cases hc : ([("yes").data, ("y").data].contains (lowerStr s)) = true
    · rw [if_neg (not_not_intro hc), if_pos hc]
    · rw [if_pos hc, if_neg hc]
  refine ⟨?_, ?_, ?_, ?_⟩
  · rw [key r]
    by_cases hc : ([("yes").data, ("y").data].contains (lowerStr r)) = true
    · rw [if_pos hc]
      simp [(hmem r).mp hc]
    · rw [if_neg hc]
      constructor
      · intro h
        exact Option.noConfusion h
      · intro hd
        exact absurd ((hmem r).mpr hd) hc
  · rw [key [], if_neg (by decide)]
  · rw [key ("YES").data, if_pos (by decide)]
  · rw [key ("Y").data, if_pos (by decide)]

/-- Witness for `versionGate_responses` at version `"4.0.2"` and
response `"no"`. -/
theorem versionGate_responses_witness :
    (versionGate ("4.0.2").data ("no").data = none
      ↔ lowerStr ("no").data = ("yes").data ∨ lowerStr ("no").data = ("y").data) ∧
    versionGate ("4.0.2").data [] = some 0 :=
  ⟨(versionGate_responses ("4.0.2").data ("no").data (by decide)).1,
   (versionGate_responses ("4.0.2").data ("no").data (by decide)).2.1⟩

/-- C6, amended.  As stated the claim is false: besides the
bootstrapper usage check (exit -1) and the version gate (exit 0), the
PySpark-not-found branch of the normalizer terminates with
`sys.exit(1)` — a `SystemExit`, which `except Exception` does not
catch (see the counterexample).  Amended: the early terminations with
explicit exit codes are exactly the usage check (code -1, only on a
short argument vector), the version gate (code 0, only when the pip
output carries a version marker), and the PySpark-not-found branch
(code 1, only when it does not); every other failure of the pip-check
step is caught and falls through. -/
theorem explicit_exit_codes (argv : List (List Char)) (out r : List Char) (c c' : Int) :
    ((sbdlMain argv).exitCode = some c → c = -1 ∧ argv.length < 3) ∧
    (pipCheckStep out r = some c' →
      (c' = 0 ∧ hasVersionMarker out = true)
        ∨ (c' = 1 ∧ hasVersionMarker out = false)) := by
  constructor
  · intro h
    unfold sbdlMain at h
    by_cases hl : argv.length < 3
    · rw [if_pos hl] at h
      refine ⟨?_, hl⟩
      injection h with h
      omega
    · rw [if_neg hl] at h
      exact Option.noConfusion h
  · intro h
    unfold pipCheckStep at h
    by_cases hm : hasVersionMarker out = true
    · rw [if_pos hm] at h
      refine Or.inl ⟨?_, hm⟩
      split at h
      · exact Option.noConfusion h
      · split at h
        · exact versionGate_exit_zero h
        · exact Option.noConfusion h
    · rw [if_neg hm] at h
      refine Or.inr ⟨?_, by simpa using hm⟩
      injection h with h
      omega

/-- Witness for `explicit_exit_codes` at a one-entry argument vector
and a pip output reporting PySpark missing. -/
theorem explicit_exit_codes_witness :
    ((-1 : Int) = -1 ∧ ([("sbdl_main.py").data] : List (List Char)).length < 3) ∧
    (((1 : Int) = 0
        ∧ hasVersionMarker ("WARNING: Package(s) not found: pyspark").data = true)
      ∨ ((1 : Int) = 1
        ∧ hasVersionMarker ("WARNING: Package(s) not found: pyspark").data = false)) :=
  ⟨(explicit_exit_codes [("sbdl_main.py").data]
      ("WARNING: Package(s) not found: pyspark").data ("yes").data (-1) 1).1 (by decide),
   (explicit_exit_codes [("sbdl_main.py").data]
      ("WARNING: Package(s) not found: pyspark").data ("yes").data (-1) 1).2 (by decide)⟩

/-- C6 is false as stated: when `pip show pyspark` reports PySpark
missing, the normalizer terminates with explicit exit code 1
(`sys.exit(1)` raises `SystemExit`, which `except Exception` does not
catch) — an early termination that is neither the usage check (-1)
nor the version gate (0). -/
theorem explicit_exit_codes_cex :
    pipCheckStep ("WARNING: Package(s) not found: pyspark").data ("yes").data = some 1 ∧
    (1 : Int) ≠ -1 ∧ (1 : Int) ≠ 0 :=
  ⟨by decide, by decide, by decide⟩

/-- C7: in the `try/except/finally` tail of the normalizer, every
exception raised by the session-creation/diagnostic body is caught:
its message and stack trace are printed together with the remediation
hints, the prints of the cleanup block always follow (normal and
exceptional path alike), and the whole construct finishes normally
even when the cleanup itself raises. -/
theorem sparkTail_semantics (body stopc : PyComp) :
    (sparkTail body stopc).outcome = Outcome.normal ∧
    stopc.prints <:+ (sparkTail body stopc).prints ∧
    (∀ m, body.outcome = Outcome.raised m →
      errPrint m ∈ (sparkTail body stopc).prints ∧
      tracebackPrint m ∈ (sparkTail body stopc).prints ∧
      ∀ hint ∈ remediationLines, hint ∈ (sparkTail body stopc).prints) := by
  rcases body with ⟨bp, bo⟩
  rcases stopc with ⟨sp, so⟩
  rcases bo with _ | m0
  · have hred : sparkTail ⟨bp, Outcome.normal⟩ ⟨sp, so⟩
        = ⟨bp ++ sp, Outcome.normal⟩ := by
      rcases so with _ | m1 <;> rfl
    rw [hred]
    refine ⟨rfl, List.suffix_append bp sp, ?_⟩
    intro m hm
    exact Outcome.noConfusion hm
  · have hred : sparkTail ⟨bp, Outcome.raised m0⟩ ⟨sp, so⟩
        = ⟨(bp ++ (errPrint m0 :: remediationLines ++ [tracebackPrint m0])) ++ sp,
           Outcome.normal⟩ := by
      rcases so with _ | m1 <;> rfl
    rw [hred]
    refine ⟨rfl, List.suffix_append _ sp, ?_⟩
    intro m hm
    obtain rfl : m0 = m := by
      have h2 : Outcome.raised m0 = Outcome.raised m := hm
      injection h2
    refine ⟨by simp, by simp, ?_⟩
    intro hint hh
    simp [hh]

/-- Witness for `sparkTail_semantics`: a body that raises and a
cleanup that itself raises. -/
theorem sparkTail_semantics_witness :
    errPrint ("boom").data
      ∈ (sparkTail ⟨[], Outcome.raised ("boom").data⟩
          ⟨[], Outcome.raised ("stop failed").data⟩).prints :=
  ((sparkTail_semantics ⟨[], Outcome.raised ("boom").data⟩
      ⟨[], Outcome.raised ("stop failed").data⟩).2.2 ("boom").data rfl).1

end SBDL
